import Mathlib

/-!
Verification of the opencode-notification-sdk decision pipeline.

Shallow embedding of the repository's core modules:
  * `src/config.ts`       — config parsing/merging (`parseConfigFile`,
    `substituteString`, `getBackendConfig`)
  * `src/events.ts`       — session classification (`isChildSession`)
  * `src/rate-limiter.ts` — per-key leading/trailing rate limiter
    (`createRateLimiter` / `shouldAllow`)
  * `src/templates.ts`    — template rendering and the `resolveField`
    fallback cascade
  * `src/plugin-factory.ts` — the event-hook orchestrator
    (`createNotificationPlugin`'s `event` handler)

JavaScript values that cross these interfaces are modelled by an explicit
`Json` inductive; the host capabilities (session lookup, shell execution,
environment, filesystem) are explicit function parameters; `Promise`
rejection is modelled with `Except`.  Nested JavaScript expressions are
translated compositionally into small single-match Lean definitions.
-/

namespace ONS

/-- JSON values as produced by `JSON.parse`.  Object fields are kept as an
association list in insertion order; values produced by `JSON.parse` have
pairwise-distinct keys (JavaScript object semantics), and all definitions
below read fields with first-match lookup, which agrees with JavaScript
property access on such values. -/
inductive Json where
  | null
  | bool (b : Bool)
  | num (n : Int)
  | str (s : String)
  | arr (elems : List Json)
  | obj (fields : List (String × Json))

/-- First-match association-list lookup (JavaScript property access `o[k]`,
`undefined` becoming `none`). -/
def alookup {β : Type} (k : String) : List (String × β) → Option β
  | [] => none
  | (k', v) :: rest => if k = k' then some v else alookup k rest

/-- `isRecord` from `src/types.ts`: a non-null, non-array JavaScript object. -/
def isRecord : Json → Bool
  | .obj _ => true
  | _ => false

/-! ## Config loader (`src/config.ts`) -/

/-- Modelled from the spec: `NOTIFICATION_EVENTS`, the closed enumeration
of canonical event kinds (spec §3).  The current snapshot's `types.ts`
revision is not under `src/` (only 5-kind older revisions are); the three
kinds are forced by `createDefaultConfig` in `src/config.ts` (whose
`events` literal has exactly these three keys) and by
`tests/types.test.ts`, which asserts exactly this list. -/
def NOTIFICATION_EVENTS : List String :=
  ["session.idle", "session.error", "permission.asked"]

/-- `EventConfig` from `src/config.ts`. -/
structure EventConfig where
  enabled : Bool
deriving DecidableEq

/-- The per-kind `events` record of `NotificationSDKConfig`
(`Record<NotificationEvent, EventConfig>`, one field per canonical kind). -/
structure EventsConfig where
  sessionIdle : EventConfig
  sessionError : EventConfig
  permissionAsked : EventConfig
deriving DecidableEq

/-- `NotificationSDKConfig` from `src/config.ts` (current revision:
`enabled`, `events`, `backend`). -/
structure NotificationSDKConfig where
  enabled : Bool
  events : EventsConfig
  backend : List (String × Json)

/-- The `events` part of `createDefaultConfig`: every kind enabled. -/
def defaultEvents : EventsConfig := ⟨⟨true⟩, ⟨true⟩, ⟨true⟩⟩

/-- `createDefaultConfig` from `src/config.ts`. -/
def createDefaultConfig : NotificationSDKConfig := ⟨true, defaultEvents, []⟩

/-- `typeof eventVal.enabled === "boolean" ? { enabled: eventVal.enabled } :
defaults.events[key]` — the inner test of `parseConfigFile`'s events loop,
applied to the looked-up `eventVal.enabled`. -/
def entryFromEnabled : Option Json → EventConfig
  | some (.bool b) => ⟨b⟩
  | _ => ⟨true⟩

/-- `isRecord(eventVal)` gate of the events loop, applied to the looked-up
`parsed.events[key]`. -/
def entryFromEventVal : Option Json → EventConfig
  | some (.obj o) => entryFromEnabled (alookup "enabled" o)
  | _ => ⟨true⟩

/-- One iteration of `parseConfigFile`'s `for key of NOTIFICATION_EVENTS`
loop: the user entry overrides the default `{ enabled: true }` exactly when
it is a record with a boolean `enabled`. -/
def parseEventEntry (evFields : List (String × Json)) (key : String) :
    EventConfig :=
  entryFromEventVal (alookup key evFields)

/-- The events merge given `parsed.events`: when it is a record the loop
overrides each canonical kind, otherwise `{ ...defaults.events }` is kept. -/
def parseEventsFromVal : Option Json → EventsConfig
  | some (.obj ev) =>
      ⟨parseEventEntry ev "session.idle",
       parseEventEntry ev "session.error",
       parseEventEntry ev "permission.asked"⟩
  | _ => defaultEvents

/-- The `events` field of `parseConfigFile`. -/
def parseEventsField (fields : List (String × Json)) : EventsConfig :=
  parseEventsFromVal (alookup "events" fields)

/-- `typeof parsed.enabled === "boolean" ? parsed.enabled :
defaults.enabled`. -/
def parseEnabledFromVal : Option Json → Bool
  | some (.bool b) => b
  | _ => true

/-- The `enabled` field of `parseConfigFile`. -/
def parseEnabledField (fields : List (String × Json)) : Bool :=
  parseEnabledFromVal (alookup "enabled" fields)

/-- `isRecord(parsed.backend) ? { ...parsed.backend } : defaults.backend`. -/
def parseBackendFromVal : Option Json → List (String × Json)
  | some (.obj b) => b
  | _ => []

/-- The `backend` field of `parseConfigFile`. -/
def parseBackendField (fields : List (String × Json)) :
    List (String × Json) :=
  parseBackendFromVal (alookup "backend" fields)

/-- `parseConfigFile` from `src/config.ts`, modelled on the value produced
by `JSON.parse` (a malformed-JSON input throws before this point and is not
a `Json` value).  A non-object top level throws `"Invalid notification
config: expected a JSON object"`; otherwise each field is validated
independently with silent fallback to its default. -/
def parseConfigFile : Json → Except String NotificationSDKConfig
  | .obj fields =>
      .ok ⟨parseEnabledField fields, parseEventsField fields,
           parseBackendField fields⟩
  | _ => .error "Invalid notification config: expected a JSON object"

/-- The `Json` value `JSON.parse(JSON.stringify(c))` of a parsed config:
the object literal returned by `parseConfigFile` (keys in insertion order
`enabled`, `events`, `backend`; `events` keys in the order of
`createDefaultConfig`). -/
def serializeConfig (c : NotificationSDKConfig) : Json :=
  .obj [("enabled", .bool c.enabled),
        ("events", .obj [
          ("session.idle", .obj [("enabled", .bool c.events.sessionIdle.enabled)]),
          ("session.error", .obj [("enabled", .bool c.events.sessionError.enabled)]),
          ("permission.asked", .obj [("enabled", .bool c.events.permissionAsked.enabled)])]),
        ("backend", .obj c.backend)]

/-- `getBackendConfig` from `src/config.ts`: `void backendName; return
config.backend;`. -/
def getBackendConfig (config : NotificationSDKConfig)
    (backendName : String) : List (String × Json) :=
  config.backend

/-- Lookup of a canonical kind in the merged `events` record
(`config.events[k]`). -/
def eventsFor (e : EventsConfig) (k : String) : Option EventConfig :=
  if k = "session.idle" then some e.sessionIdle
  else if k = "session.error" then some e.sessionError
  else if k = "permission.asked" then some e.permissionAsked
  else none

/-- Whether a looked-up `eventVal.enabled` is a boolean. -/
def boolMention : Option Json → Bool
  | some (.bool _) => true
  | _ => false

/-- Whether a looked-up `parsed.events[k]` is a record with a boolean
`enabled`. -/
def mentionsVal : Option Json → Bool
  | some (.obj o) => boolMention (alookup "enabled" o)
  | _ => false

/-- Whether an `events` record explicitly mentions kind `k` with a boolean
`enabled` field — exactly the condition under which `parseConfigFile`
overrides the default entry. -/
def mentionsIn (ev : List (String × Json)) (k : String) : Bool :=
  mentionsVal (alookup k ev)

/-- Whether a looked-up `parsed.events` mentions kind `k`. -/
def mentionsEventsVal : Option Json → String → Bool
  | some (.obj ev), k => mentionsIn ev k
  | _, _ => false

/-- Whether a raw config value explicitly sets `events[k].enabled` to a
boolean. -/
def mentionsKind : Json → String → Bool
  | .obj fields, k => mentionsEventsVal (alookup "events" fields) k
  | _, _ => false

theorem parse_serialize (c : NotificationSDKConfig) :
    parseConfigFile (serializeConfig c) = .ok c := by
  obtain ⟨en, ⟨⟨i⟩, ⟨e⟩, ⟨p⟩⟩, bk⟩ := c
  rfl

theorem entryFromEnabled_default (x : Option Json)
    (h : boolMention x = false) : entryFromEnabled x = ⟨true⟩ := by
  rcases x with _ | v
  · rfl
  · rcases v with _ | b | n | s | xs | o
    case bool => exact absurd h (by simp [boolMention])
    all_goals rfl

theorem entryFromEventVal_default (x : Option Json)
    (h : mentionsVal x = false) : entryFromEventVal x = ⟨true⟩ := by
  rcases x with _ | v
  · rfl
  · rcases v with _ | b | n | s | xs | o
    case obj =>
      exact entryFromEnabled_default _ (by simpa [mentionsVal] using h)
    all_goals rfl

theorem c7core (fields : List (String × Json)) (k : String)
    (hk : k ∈ NOTIFICATION_EVENTS) :
    ∃ ec, eventsFor (parseEventsField fields) k = some ec ∧
      (mentionsKind (.obj fields) k = false → ec.enabled = true) := by
  have hcases : k = "session.idle" ∨ k = "session.error" ∨
      k = "permission.asked" := by
    simpa [NOTIFICATION_EVENTS] using hk
  have hmk : mentionsKind (.obj fields) k =
      mentionsEventsVal (alookup "events" fields) k := rfl
  unfold parseEventsField
  rcases hl : alookup "events" fields with _ | v
  · rw [hmk, hl]
    rcases hcases with rfl | rfl | rfl <;>
      exact ⟨⟨true⟩, by simp [eventsFor, parseEventsFromVal, defaultEvents],
        fun _ => rfl⟩
  · rcases v with _ | b | n | s | xs | ev
    case obj =>
      rw [hmk, hl]
      rcases hcases with rfl | rfl | rfl
      · exact ⟨parseEventEntry ev "session.idle",
          by simp [eventsFor, parseEventsFromVal], fun h => by
            have : mentionsIn ev "session.idle" = false := by
              simpa [mentionsEventsVal] using h
            simpa [parseEventEntry] using
              congrArg EventConfig.enabled (entryFromEventVal_default _ this)⟩
      · exact ⟨parseEventEntry ev "session.error",
          by simp [eventsFor, parseEventsFromVal], fun h => by
            have : mentionsIn ev "session.error" = false := by
              simpa [mentionsEventsVal] using h
            simpa [parseEventEntry] using
              congrArg EventConfig.enabled (entryFromEventVal_default _ this)⟩
      · exact ⟨parseEventEntry ev "permission.asked",
          by simp [eventsFor, parseEventsFromVal], fun h => by
            have : mentionsIn ev "permission.asked" = false := by
              simpa [mentionsEventsVal] using h
            simpa [parseEventEntry] using
              congrArg EventConfig.enabled (entryFromEventVal_default _ this)⟩
    all_goals
      rw [hmk, hl]
      rcases hcases with rfl | rfl | rfl <;>
        exact ⟨⟨true⟩, by simp [eventsFor, parseEventsFromVal, defaultEvents],
          fun _ => rfl⟩

/-- C7: on every input on which `parseConfigFile` succeeds, the merged
`events` record has an entry for every canonical kind, and that entry's
`enabled` is `true` for every kind the input does not explicitly set
(with a boolean `enabled`): partial user input is merged over defaults,
never replacing the whole `events` sub-tree. -/
theorem parse_events_total_default_true (j : Json)
    (c : NotificationSDKConfig) (h : parseConfigFile j = .ok c)
    (k : String) (hk : k ∈ NOTIFICATION_EVENTS) :
    ∃ ec, eventsFor c.events k = some ec ∧
      (mentionsKind j k = false → ec.enabled = true) := by
  rcases j with _ | b | n | s | xs | fields
  case obj =>
    have hc : c = ⟨parseEnabledField fields, parseEventsField fields,
        parseBackendField fields⟩ := by
      have h' := h
      simp only [parseConfigFile, Except.ok.injEq] at h'
      exact h'.symm
    subst hc
    exact c7core fields k hk
  all_goals exact absurd h (by simp [parseConfigFile])

/-- Sample raw config for the C7 witness: disables `session.idle` only. -/
def w7json : Json :=
  .obj [("events", .obj [("session.idle", .obj [("enabled", .bool false)])])]

/-- The parse of `w7json`. -/
def w7cfg : NotificationSDKConfig := ⟨true, ⟨⟨false⟩, ⟨true⟩, ⟨true⟩⟩, []⟩

theorem parse_events_total_default_true_witness :
    parseConfigFile w7json = .ok w7cfg ∧
    "session.error" ∈ NOTIFICATION_EVENTS ∧
    (∃ ec, eventsFor w7cfg.events "session.error" = some ec ∧
      (mentionsKind w7json "session.error" = false → ec.enabled = true)) :=
  ⟨rfl, by decide,
    parse_events_total_default_true w7json w7cfg rfl "session.error"
      (by decide)⟩

/-- C8: `parse` is idempotent on its own output — re-parsing the
serialization of a successfully parsed config yields the same result. -/
theorem parse_idempotent_on_serialize (j : Json)
    (c : NotificationSDKConfig) (h : parseConfigFile j = .ok c) :
    parseConfigFile (serializeConfig c) = parseConfigFile j := by
  rw [parse_serialize c, h]

/-- Sample raw config for the C8 witness. -/
def w8json : Json :=
  .obj [("enabled", .bool false), ("backend", .obj [("topic", .str "t")])]

/-- The parse of `w8json`. -/
def w8cfg : NotificationSDKConfig :=
  ⟨false, defaultEvents, [("topic", .str "t")]⟩

theorem parse_idempotent_on_serialize_witness :
    parseConfigFile w8json = .ok w8cfg ∧
    parseConfigFile (serializeConfig w8cfg) = parseConfigFile w8json :=
  ⟨rfl, parse_idempotent_on_serialize w8json w8cfg rfl⟩

/-- C10: `getBackendConfig` ignores its `backendName` argument — the result
is `config.backend` for every name. -/
theorem getBackendConfig_ignores_backendName
    (c : NotificationSDKConfig) (n1 n2 : String) :
    getBackendConfig c n1 = getBackendConfig c n2 ∧
      getBackendConfig c n1 = c.backend :=
  ⟨rfl, rfl⟩

/-! ## Rate limiter (`src/rate-limiter.ts`)

`createRateLimiter` parses the ISO-8601 duration to milliseconds (via the
external `iso8601-duration` package; we take the millisecond value as
input), returns an always-allow limiter when it is zero, and otherwise a
leading (throttle) or trailing (debounce) limiter built on the external
`throttle-debounce` package.  That package is not part of this repository:
its per-key timer behaviour is modelled here exactly as the repository
documents and tests it —
  * leading / `throttle(d, cb, { noTrailing: true })`: the callback runs
    when the key has never fired, or when `elapsed > delay` *strictly*
    (`tests/rate-limiter.test.ts` documents the strict comparison:
    "throttle-debounce uses strict > comparison, so we advance past the
    delay");
  * trailing / `debounce(d, cb)`: every call re-arms a timer that sets the
    key's `pendingFire` flag once a quiet period of `d` elapses with no
    further call; `shouldAllow` reads and clears the flag before re-arming.
Time is an explicit `Nat` millisecond clock; a timer armed at `ta` has
fired by the time of a call at `now` iff `ta + d ≤ now`. -/

/-- The `edge` option of `RateLimiterOptions`. -/
inductive Edge where
  | leading
  | trailing
deriving DecidableEq

/-- The shape of limiter selected by `createRateLimiter`. -/
inductive LimiterKind where
  | zero
  | leading (durationMs : Nat)
  | trailing (durationMs : Nat)
deriving DecidableEq

/-- `createRateLimiter` from `src/rate-limiter.ts`, after duration parsing:
zero duration disables rate limiting, otherwise the edge picks the
throttle or debounce implementation. -/
def createRateLimiter (durationMs : Nat) (edge : Edge) : LimiterKind :=
  if durationMs = 0 then .zero
  else match edge with
    | .leading => .leading durationMs
    | .trailing => .trailing durationMs

/-- Per-key timer state: `lastExec` is the throttle's last-fired time
(`none` = never fired), `pending` the debounce's `pendingFire` flag, and
`timerAt` the arming time of the debounce's quiet-period timer. -/
structure KeyState where
  lastExec : Option Nat
  pending : Bool
  timerAt : Option Nat
deriving DecidableEq

/-- Fresh per-key state (no throttled/debounced function created yet). -/
def initKS : KeyState := ⟨none, false, none⟩

/-- One `shouldAllow` transition for a single key's state at time `now`. -/
def stepKey (kind : LimiterKind) (now : Nat) (ks : KeyState) :
    Bool × KeyState :=
  match kind with
  | .zero => (true, ks)
  | .leading d =>
    match ks.lastExec with
    | none => (true, { ks with lastExec := some now })
    | some last =>
      if d < now - last then (true, { ks with lastExec := some now })
      else (false, ks)
  | .trailing d =>
    -- deliver a due quiet-period timer before the call runs
    let ks1 :=
      match ks.timerAt with
      | some ta =>
        if ta + d ≤ now then { ks with pending := true, timerAt := none }
        else ks
      | none => ks
    -- `shouldAllow`: read and clear `pendingFire`, then re-arm the timer
    (ks1.pending, { ks1 with pending := false, timerAt := some now })

/-- The limiter's key-indexed state (`Map<string, ...>`); keys not present
map to `initKS`. -/
def LimState : Type := List (String × KeyState)

/-- Read a key's state (`Map.get` with the fresh default). -/
def getKS (st : LimState) (k : String) : KeyState :=
  (alookup k st).getD initKS

/-- Write a key's state (`Map.set`; first-match lookup makes prepending a
faithful update). -/
def setKS (st : LimState) (k : String) (ks : KeyState) : LimState :=
  (k, ks) :: st

/-- `limiter.shouldAllow(eventType)` at time `now`: transition the one
key's state, leaving every other key untouched. -/
def shouldAllow (kind : LimiterKind) (st : LimState) (now : Nat)
    (k : String) : Bool × LimState :=
  ((stepKey kind now (getKS st k)).1,
   setKS st k (stepKey kind now (getKS st k)).2)

/-- Run a sequence of `shouldAllow` calls for a single key (call times in
order), collecting the results. -/
def runKey (kind : LimiterKind) (ks : KeyState) : List Nat → List Bool
  | [] => []
  | t :: ts => (stepKey kind t ks).1 :: runKey kind (stepKey kind t ks).2 ts

/-- Run a trace of `shouldAllow` calls (time, key), collecting each call's
key and result. -/
def runTrace (kind : LimiterKind) (st : LimState) :
    List (Nat × String) → List (String × Bool)
  | [] => []
  | (t, k) :: rest =>
    (k, (shouldAllow kind st t k).1) ::
      runTrace kind (shouldAllow kind st t k).2 rest

/-- The results observed for key `k` in a run's output. -/
def resultsFor (k : String) (out : List (String × Bool)) : List Bool :=
  (out.filter (fun p => p.1 = k)).map (fun p => p.2)

/-- The call times for key `k` in a trace. -/
def timesFor (k : String) (trace : List (Nat × String)) : List Nat :=
  (trace.filter (fun p => p.2 = k)).map (fun p => p.1)

theorem getKS_setKS_same (st : LimState) (k : String) (ks : KeyState) :
    getKS (setKS st k ks) k = ks := by
  simp [getKS, setKS, alookup]

theorem getKS_setKS_other (st : LimState) (k k' : String) (ks : KeyState)
    (h : k' ≠ k) : getKS (setKS st k ks) k' = getKS st k' := by
  simp [getKS, setKS, alookup, h]

theorem resultsFor_cons (k k' : String) (b : Bool)
    (out : List (String × Bool)) :
    resultsFor k ((k', b) :: out) =
      if k' = k then b :: resultsFor k out else resultsFor k out := by
  by_cases h : k' = k <;> simp [resultsFor, List.filter_cons, h]

theorem timesFor_cons (k k' : String) (t : Nat)
    (trace : List (Nat × String)) :
    timesFor k ((t, k') :: trace) =
      if k' = k then t :: timesFor k trace else timesFor k trace := by
  by_cases h : k' = k <;> simp [timesFor, List.filter_cons, h]

/-- The results a key observes in any interleaved trace are exactly the
results of running its own calls alone from its own state. -/
theorem resultsFor_runTrace (kind : LimiterKind) (k : String) :
    ∀ (trace : List (Nat × String)) (st : LimState),
      resultsFor k (runTrace kind st trace) =
        runKey kind (getKS st k) (timesFor k trace)
  | [], _ => rfl
  | (t, k') :: rest, st => by
    have ih := resultsFor_runTrace kind k rest
      (setKS st k' (stepKey kind t (getKS st k')).2)
    by_cases hk : k' = k
    · subst hk
      simp only [runTrace, shouldAllow, resultsFor_cons, timesFor_cons,
        if_pos rfl]
      rw [ih, getKS_setKS_same]
      rfl
    · simp only [runTrace, shouldAllow, resultsFor_cons, timesFor_cons,
        if_neg hk]
      rw [ih, getKS_setKS_other _ _ _ _ (Ne.symm hk)]

/-- C6: two distinct keys never interfere — in any interleaving of
`shouldAllow` calls for keys `k1 ≠ k2` (any limiter kind), the sequence of
results for `k2` equals the sequence obtained with all `k1` calls removed:
exhausting or restarting `k1`'s window never changes `k2`'s eligibility. -/
theorem rateLimiter_key_independence (kind : LimiterKind)
    (k1 k2 : String) (hne : k1 ≠ k2) (trace : List (Nat × String))
    (hkeys : ∀ p ∈ trace, p.2 = k1 ∨ p.2 = k2) (st : LimState) :
    resultsFor k2 (runTrace kind st trace) =
      resultsFor k2 (runTrace kind st
        (trace.filter (fun p => p.2 = k2))) := by
  rw [resultsFor_runTrace, resultsFor_runTrace]
  congr 1
  simp [timesFor, List.filter_filter]

theorem rateLimiter_key_independence_witness :
    ("a" : String) ≠ "b" ∧
    (∀ p ∈ [((1 : Nat), "a"), (2, "b"), (3, "a"), (4, "b")],
      (p.2 = "a" ∨ p.2 = "b")) ∧
    resultsFor "b" (runTrace (.leading 5) []
        [((1 : Nat), "a"), (2, "b"), (3, "a"), (4, "b")]) =
      resultsFor "b" (runTrace (.leading 5) []
        ([((1 : Nat), "a"), (2, "b"), (3, "a"), (4, "b")].filter
          (fun p => p.2 = "b"))) :=
  ⟨by decide, by decide,
    rateLimiter_key_independence (.leading 5) "a" "b" (by decide) _
      (by decide) []⟩

/-- C5 counterexample: with a leading-edge limiter of window `D = 2` ms, a
first call at `t = 10` fires; the claim says the first call *at or after*
the window elapses (`t = 12`) fires again, but the code's strict
`elapsed > delay` comparison denies it. -/
theorem leading_boundary_call_denied :
    ¬ ((shouldAllow (createRateLimiter 2 .leading)
        (shouldAllow (createRateLimiter 2 .leading) [] 10 "k").2
        12 "k").1 = true) := by
  decide

/-- C5 (amended): for a leading-edge limiter with non-zero window `D` and
any key, the first call fires and records its time; while a window started
at `t0` is running — `now - t0 ≤ D`, including the instant the window
elapses — calls are denied and the window is kept; the first call strictly
after the window (`D < now - t0`) fires and restarts the window at `now`. -/
theorem leading_limiter_spec (D : Nat) (hD : D ≠ 0) (k : String)
    (st : LimState) (t0 now : Nat) :
    ((shouldAllow (createRateLimiter D .leading) [] t0 k).1 = true ∧
      getKS (shouldAllow (createRateLimiter D .leading) [] t0 k).2 k =
        { initKS with lastExec := some t0 }) ∧
    ((getKS st k).lastExec = some t0 → now - t0 ≤ D →
      (shouldAllow (createRateLimiter D .leading) st now k).1 = false ∧
      getKS (shouldAllow (createRateLimiter D .leading) st now k).2 k =
        getKS st k) ∧
    ((getKS st k).lastExec = some t0 → D < now - t0 →
      (shouldAllow (createRateLimiter D .leading) st now k).1 = true ∧
      (getKS (shouldAllow (createRateLimiter D .leading) st now k).2
        k).lastExec = some now) := by
  have hkind : createRateLimiter D .leading = .leading D := by
    simp [createRateLimiter, hD]
  refine ⟨?_, ?_, ?_⟩
  · constructor
    · simp [hkind, shouldAllow, stepKey, getKS, alookup, initKS]
    · simp [hkind, shouldAllow, stepKey, getKS, setKS, alookup, initKS]
  · intro hlast hle
    have hnot : ¬ D < now - t0 := by omega
    constructor
    · simp [hkind, shouldAllow, stepKey, hlast, hnot]
    · simp [hkind, shouldAllow, stepKey, hlast, hnot, getKS_setKS_same]
  · intro hlast hlt
    constructor
    · simp [hkind, shouldAllow, stepKey, hlast, hlt]
    · simp [hkind, shouldAllow, stepKey, hlast, hlt, getKS_setKS_same]

theorem leading_limiter_spec_witness :
    (3 : Nat) ≠ 0 ∧
    (getKS (shouldAllow (createRateLimiter 3 .leading) [] 10 "k").2
      "k").lastExec = some 10 ∧
    (10 : Nat) - 10 ≤ 3 ∧ (3 : Nat) < 14 - 10 ∧
    ((shouldAllow (createRateLimiter 3 .leading)
        (shouldAllow (createRateLimiter 3 .leading) [] 10 "k").2
        14 "k").1 = true ∧
      (getKS (shouldAllow (createRateLimiter 3 .leading)
          (shouldAllow (createRateLimiter 3 .leading) [] 10 "k").2
          14 "k").2 "k").lastExec = some 14) :=
  ⟨by decide, by decide, by decide, by decide,
    (leading_limiter_spec 3 (by decide) "k"
        (shouldAllow (createRateLimiter 3 .leading) [] 10 "k").2
        10 14).2.2 (by decide) (by decide)⟩

/-! ## Session classifier (`src/events.ts`) -/

/-- The session object returned by the host's `client.session.get`
(`{ parentID?: string }`). -/
structure SessionData where
  parentID : Option String
deriving DecidableEq

/-- The response envelope `{ data: { parentID?: string } | undefined }`. -/
structure SessionResponse where
  data : Option SessionData
deriving DecidableEq

/-- JavaScript truthiness of `data?.parentID` continued: a missing
`parentID` and the empty string are falsy. -/
def truthyParent : Option String → Bool
  | none => false
  | some p => p != ""

/-- JavaScript truthiness of `response.data?.parentID`: optional chaining
on a missing `data` yields `undefined` (falsy). -/
def boolOfData : Option SessionData → Bool
  | none => false
  | some d => truthyParent d.parentID

/-- `isChildSession` from `src/events.ts`: call the host session lookup and
return `Boolean(response.data?.parentID)`; any rejection is caught and
yields `false`.  The lookup capability is an explicit function; rejection
is `Except.error`. -/
def isChildSession (get : String → Except Unit SessionResponse)
    (sessionId : String) : Bool :=
  match get sessionId with
  | .error _ => false
  | .ok response => boolOfData response.data

/-- C4 counterexample: `isChildSession` has no empty-session-id guard — it
calls the lookup with `""` and believes the result.  With a lookup that
returns a session having `parentID = "parent"`, the empty session id
yields `true`, where the claim requires `false`. -/
theorem isChildSession_empty_id_true :
    isChildSession (fun _ => .ok ⟨some ⟨some "parent"⟩⟩) "" = true := by
  decide

/-- C4 (amended): if the lookup rejects, `isChildSession` returns `false`
(fail open, treat as root); if the lookup returns a session with a
non-empty `parentID`, it returns `true` — in both cases regardless of the
session id, empty included: the empty-id guard lives in the caller
(`plugin-factory.ts`'s `session.error` branch), not in the classifier. -/
theorem isChildSession_fail_open
    (get : String → Except Unit SessionResponse) (sessionId : String)
    (response : SessionResponse) (p : String) :
    (get sessionId = .error () → isChildSession get sessionId = false) ∧
    (get sessionId = .ok response → response.data = some ⟨some p⟩ →
      p ≠ "" → isChildSession get sessionId = true) := by
  constructor
  · intro h
    simp [isChildSession, h]
  · intro h hd hp
    simp [isChildSession, h, hd, boolOfData, truthyParent, hp]

theorem isChildSession_fail_open_witness :
    isChildSession (fun _ => .error ()) "sess-1" = false ∧
    isChildSession (fun _ => .ok ⟨some ⟨some "p0"⟩⟩) "child-1" = true :=
  ⟨(isChildSession_fail_open (fun _ => .error ()) "sess-1" ⟨none⟩ "").1 rfl,
   (isChildSession_fail_open (fun _ => .ok ⟨some ⟨some "p0"⟩⟩) "child-1"
      ⟨some ⟨some "p0"⟩⟩ "p0").2 rfl rfl (by decide)⟩

/-! ## Template resolution (`src/templates.ts`) -/

/-- The result of the Bun shell call `$\x7b...\x7d.nothrow().quiet()`:
exit code and the stdout text returned by `result.text()`. -/
structure ExecResult where
  exitCode : Int
  text : String
deriving DecidableEq

/-- JavaScript `String.prototype.trim`: strip leading and trailing
whitespace. -/
def jsTrim (s : String) : String :=
  String.mk
    (((s.data.dropWhile Char.isWhitespace).reverse.dropWhile
        Char.isWhitespace).reverse)

/-- A `\w` character of the template-variable pattern `/\{(\w+)\}/g`
(ASCII letters, digits, underscore). -/
def isWordChar (c : Char) : Bool := c.isAlphanum || c = '_'

/-- `variables[key] ?? ""` of `substituteVariables`'s replacement
callback. -/
def lookupVar (vars : List (String × String)) (key : String) :
    String :=
  (alookup key vars).getD ""

/-- Parse `\w+` followed by a closing brace at the head of the input,
returning the captured name and the rest (the regex engine's match at the
position right after an opening brace). -/
def parseWordBrace (l : List Char) : Option (String × List Char) :=
  match l.takeWhile isWordChar, l.dropWhile isWordChar with
  | [], _ => none
  | w, '}' :: r => some (String.mk w, r)
  | _, _ => none

/-- The global-regex scan of `substituteVariables`
(`template.replace(/\{(\w+)\}/g, ...)`): leftmost matches are replaced by
the variable's value (empty if unknown); a lone opening brace that starts
no match is kept and the scan resumes one character later.  `fuel` bounds
the recursion; each step consumes at least one input character, so
`length + 1` fuel never runs out. -/
def substVarsAux (vars : List (String × String)) :
    Nat → List Char → List Char
  | 0, l => l
  | _ + 1, [] => []
  | fuel + 1, '{' :: rest =>
    match parseWordBrace rest with
    | some (name, r) =>
        (lookupVar vars name).data ++ substVarsAux vars fuel r
    | none => '{' :: substVarsAux vars fuel rest
  | fuel + 1, c :: rest => c :: substVarsAux vars fuel rest

/-- `substituteVariables` from `src/templates.ts`. -/
def substituteVariables (template : String)
    (vars : List (String × String)) : String :=
  String.mk (substVarsAux vars (template.data.length + 1) template.data)

/-- `resolveField` from `src/templates.ts`: `null`/`undefined` template →
fallback; otherwise render the command, run it through the caller-supplied
shell, and fall back when the shell throws, exits non-zero, or prints only
whitespace; otherwise return the trimmed stdout. -/
def resolveField (exec : String → Except Unit ExecResult)
    (commandTemplate : Option String)
    (vars : List (String × String)) (fallback : String) : String :=
  match commandTemplate with
  | none => fallback
  | some tmpl =>
    match exec (substituteVariables tmpl vars) with
    | .error _ => fallback
    | .ok result =>
      if result.exitCode ≠ 0 ∨ jsTrim result.text = "" then fallback
      else jsTrim result.text

/-- C9: `resolveField` never propagates a failure — a `null`/absent
template returns the fallback for *every* execution capability (none is
consulted); with a template, the rendered command's rejection, non-zero
exit, or empty/whitespace-only output all yield the fallback; otherwise
the trimmed stdout is returned. -/
theorem resolveField_fallback_cascade
    (exec : String → Except Unit ExecResult)
    (vars : List (String × String)) (fallback tmpl : String)
    (r : ExecResult) :
    (∀ exec2 : String → Except Unit ExecResult,
      resolveField exec2 none vars fallback = fallback) ∧
    (exec (substituteVariables tmpl vars) = .error () →
      resolveField exec (some tmpl) vars fallback = fallback) ∧
    (exec (substituteVariables tmpl vars) = .ok r →
      (r.exitCode ≠ 0 ∨ jsTrim r.text = "") →
      resolveField exec (some tmpl) vars fallback = fallback) ∧
    (exec (substituteVariables tmpl vars) = .ok r →
      r.exitCode = 0 → jsTrim r.text ≠ "" →
      resolveField exec (some tmpl) vars fallback = jsTrim r.text) := by
  refine ⟨fun _ => rfl, ?_, ?_, ?_⟩
  · intro h
    simp [resolveField, h]
  · intro h hfail
    simp [resolveField, h, if_pos hfail]
  · intro h h0 hne
    have : ¬ (r.exitCode ≠ 0 ∨ jsTrim r.text = "") := by
      simp [h0, hne]
    simp [resolveField, h, if_neg this]

/-- Execution capability for the C9 witness: succeeds on the literal
command `cmd` with padded output, rejects anything else. -/
def wExec : String → Except Unit ExecResult :=
  fun c => if c = "cmd" then .ok ⟨0, " out "⟩ else .error ()

theorem resolveField_fallback_cascade_witness :
    wExec (substituteVariables "cmd" []) = .ok ⟨0, " out "⟩ ∧
    ((0 : Int) = 0) ∧ jsTrim " out " ≠ "" ∧
    resolveField wExec (some "cmd") [] "fb" = jsTrim " out " :=
  ⟨rfl, rfl, by decide,
    (resolveField_fallback_cascade wExec [] "fb" "cmd" ⟨0, " out "⟩).2.2.2
      rfl rfl (by decide)⟩

/-! ## Secret substitution (`substituteString` in `src/config.ts`) -/

/-- Parse `[^}]+` followed by the closing brace at the head of the input
(the capture of `/\{env:([^}]+)\}/` and `/\{file:([^}]+)\}/` after their
literal prefix), returning the captured text and the rest. -/
def parseUpToBrace (l : List Char) : Option (String × List Char) :=
  match l.takeWhile (fun c => c ≠ '}'), l.dropWhile (fun c => c ≠ '}') with
  | [], _ => none
  | w, '}' :: r => some (String.mk w, r)
  | _, _ => none

/-- The global-regex scan of the `\x7benv:NAME\x7d` pass of
`substituteString` (`value.replace(/\{env:([^}]+)\}/g, ...)`): each
leftmost match is replaced by `process.env[NAME] ?? ""`; where the literal
prefix matches but no capture-plus-closing-brace follows, the regex engine
resumes one character later, so the scan keeps the opening brace and
continues.  `fuel` bounds the recursion; each step consumes at least one
input character, so `length + 1` fuel never runs out. -/
def substEnvAux (env : String → Option String) :
    Nat → List Char → List Char
  | 0, l => l
  | _ + 1, [] => []
  | fuel + 1, '{' :: 'e' :: 'n' :: 'v' :: ':' :: rest =>
    match parseUpToBrace rest with
    | some (name, r) => ((env name).getD "").data ++ substEnvAux env fuel r
    | none => '{' :: substEnvAux env fuel ('e' :: 'n' :: 'v' :: ':' :: rest)
  | fuel + 1, c :: rest => c :: substEnvAux env fuel rest

/-- `filePath.startsWith("/")`. -/
def startsWithSlash (s : String) : Bool :=
  match s.data with
  | '/' :: _ => true
  | _ => false

/-- `join(configDir, filePath)` from `node:path`, for the separator-free
relative paths exercised here (path normalization does not apply). -/
def pathJoin (a b : String) : String := a ++ "/" ++ b

/-- The `\x7bfile:P\x7d` pass of `substituteString`: the path is taken
verbatim when it starts with `/` and is otherwise joined onto `configDir`;
a readable file yields its trimmed contents, anything else the empty
string (`try/catch` around `readFileSync`).  The filesystem is the
explicit map `fs` from absolute path to contents. -/
def substFileAux (fs : String → Option String) (configDir : String) :
    Nat → List Char → List Char
  | 0, l => l
  | _ + 1, [] => []
  | fuel + 1, '{' :: 'f' :: 'i' :: 'l' :: 'e' :: ':' :: rest =>
    match parseUpToBrace rest with
    | some (fp, r) =>
      (match fs (if startsWithSlash fp then fp else pathJoin configDir fp) with
       | some content => (jsTrim content).data
       | none => []) ++ substFileAux fs configDir fuel r
    | none =>
      '{' :: substFileAux fs configDir fuel
        ('f' :: 'i' :: 'l' :: 'e' :: ':' :: rest)
  | fuel + 1, c :: rest => c :: substFileAux fs configDir fuel rest

/-- `substituteString` from `src/config.ts`: run the `\x7benv:\x7d` pass
over the whole string, then the `\x7bfile:\x7d` pass over its result. -/
def substituteString (env : String → Option String)
    (fs : String → Option String) (value : String) (configDir : String) :
    String :=
  String.mk
    (substFileAux fs configDir
      ((substEnvAux env (value.data.length + 1) value.data).length + 1)
      (substEnvAux env (value.data.length + 1) value.data))

/-- Environment for the C3 failing input: no variables set. -/
def tildeEnv : String → Option String := fun _ => none

/-- Filesystem for the C3 failing input: the user's home directory is
`/home/user` and `~/secret.txt` is readable there; nothing else exists —
in particular `/tmp/~/secret.txt` does not. -/
def tildeFs : String → Option String :=
  fun p => if p = "/home/user/secret.txt" then some " home-secret \n"
    else none

/-- C3 (code bug): `substituteString`'s own doc comment and
`tests/config.test.ts` promise `~`-relative file paths resolved from the
home directory, but the code only tests `startsWith("/")` and joins
everything else onto `configDir`.  On `\x7bfile:~/secret.txt\x7d` with
config dir `/tmp` it reads `/tmp/~/secret.txt`, which is unreadable, and
substitutes the empty string — the claimed behaviour is the trimmed home
file contents `"home-secret"`. -/
theorem substituteString_tilde_unsupported :
    substituteString tildeEnv tildeFs "\x7bfile:~/secret.txt\x7d" "/tmp"
      = "" ∧
    tildeFs "/home/user/secret.txt" = some " home-secret \n" ∧
    jsTrim " home-secret \n" = "home-secret" := by
  refine ⟨by decide, rfl, by decide⟩

/-! ## Decision pipeline (`src/plugin-factory.ts`)

The `event` hook installed by `createNotificationPlugin`.  The claims
settled against it count two effects per hook invocation: calls to
`backend.send` and calls to the session-lookup capability
(`isSubagentSession`, whose result is the `isSub` parameter; per
`tests/events.test.ts` it behaves as `isChildSession`).  Content
resolution (`buildTemplateVariables`, `extract*Metadata`,
`getDefaultTitle/Message`, `resolveField`) builds the payload only:
`resolveField` is total (proved above) and `backend.send` exceptions are
caught, so neither changes the control flow counted here and the metadata
values are not tracked.  The rate limiter's verdict for the single
`shouldAllow` call a hook can make is the `allow` parameter. -/

/-- The configuration fields the event hook's control flow reads:
`config.enabled`, `config.events[kind].enabled`, and whether
`config.cooldown` is non-null (`cooldown` here abbreviates
`rateLimiter !== null`, since the factory creates the limiter exactly when
`config.cooldown` is set).  The full config of this revision also carries
`templates` and `backend`, which only affect notification content. -/
structure PluginConfig where
  enabled : Bool
  events : EventsConfig
  cooldown : Bool
deriving DecidableEq

/-- The two effects a hook invocation can have on the outside world. -/
structure Effects where
  sends : Nat
  lookups : Nat
deriving DecidableEq

/-- Sequential composition of effects (the hook's two non-returning `if`
blocks run in sequence). -/
def Effects.add (a b : Effects) : Effects :=
  ⟨a.sends + b.sends, a.lookups + b.lookups⟩

/-- A raw host event as the hook sees it: its `type` string and its
`properties` value (`none` when the event carries no `properties`). -/
structure RawEvent where
  type : String
  properties : Option Json

/-- `event.properties.sessionID` read as a string, `""` otherwise
(`?? ""` in the `session.error` branch; the typed `session.idle` access
is the same read on a host-conforming event). -/
def getSessionID (props : Option Json) : String :=
  match props with
  | some (.obj fields) =>
    match alookup "sessionID" fields with
    | some (.str s) => s
    | _ => ""
  | _ => ""

/-- `resolveAndSend`'s sends: `0` when a limiter exists and denies the
event, otherwise exactly one `backend.send` call (whose exception, if
any, is caught and discarded). -/
def resolveAndSendSends (hasLimiter : Bool) (allow : Bool) : Nat :=
  if hasLimiter && !allow then 0 else 1

/-- The `session.idle` block of the hook: the subagent lookup runs first
(one lookup, unconditionally), a child session drops the event, then the
per-kind enabled check, then `resolveAndSend`. -/
def idleBranch (cfg : PluginConfig) (isSub allow : Bool) (ev : RawEvent) :
    Effects :=
  if ev.type = "session.idle" then
    if isSub then ⟨0, 1⟩
    else if !cfg.events.sessionIdle.enabled then ⟨0, 1⟩
    else ⟨resolveAndSendSends cfg.cooldown allow, 1⟩
  else ⟨0, 0⟩

/-- The `session.error` block of the hook: the lookup runs only for a
non-empty session id, before the per-kind enabled check. -/
def errorBranch (cfg : PluginConfig) (isSub allow : Bool) (ev : RawEvent) :
    Effects :=
  if ev.type = "session.error" then
    if getSessionID ev.properties ≠ "" then
      if isSub then ⟨0, 1⟩
      else if !cfg.events.sessionError.enabled then ⟨0, 1⟩
      else ⟨resolveAndSendSends cfg.cooldown allow, 1⟩
    else if !cfg.events.sessionError.enabled then ⟨0, 0⟩
    else ⟨resolveAndSendSends cfg.cooldown allow, 0⟩
  else ⟨0, 0⟩

/-- The `permission.asked` block of the hook: per-kind enabled check, then
`resolveAndSend`; no session lookup exists on this path. -/
def permBranch (cfg : PluginConfig) (allow : Bool) : Effects :=
  if !cfg.events.permissionAsked.enabled then ⟨0, 0⟩
  else ⟨resolveAndSendSends cfg.cooldown allow, 0⟩

/-- The `event` hook of `createNotificationPlugin`: global kill switch,
then the `permission.asked` branch (which returns), then the
`session.idle` and `session.error` `if` blocks in sequence. -/
def eventHook (cfg : PluginConfig) (isSub allow : Bool) (ev : RawEvent) :
    Effects :=
  if !cfg.enabled then ⟨0, 0⟩
  else if ev.type = "permission.asked" then permBranch cfg allow
  else Effects.add (idleBranch cfg isSub allow ev)
    (errorBranch cfg isSub allow ev)

theorem resolveAndSendSends_le (hasLimiter allow : Bool) :
    resolveAndSendSends hasLimiter allow ≤ 1 := by
  unfold resolveAndSendSends
  split <;> omega

theorem idleBranch_sends_le (cfg : PluginConfig) (isSub allow : Bool)
    (ev : RawEvent) : (idleBranch cfg isSub allow ev).sends ≤ 1 := by
  unfold idleBranch
  split
  · split
    · simp
    · split
      · simp
      · exact resolveAndSendSends_le _ _
  · simp

theorem errorBranch_sends_le (cfg : PluginConfig) (isSub allow : Bool)
    (ev : RawEvent) : (errorBranch cfg isSub allow ev).sends ≤ 1 := by
  unfold errorBranch
  split
  · split
    · split
      · simp
      · split
        · simp
        · exact resolveAndSendSends_le _ _
    · split
      · simp
      · exact resolveAndSendSends_le _ _
  · simp

theorem permBranch_sends_le (cfg : PluginConfig) (allow : Bool) :
    (permBranch cfg allow).sends ≤ 1 := by
  unfold permBranch
  split
  · simp
  · exact resolveAndSendSends_le _ _

theorem idleBranch_other (cfg : PluginConfig) (isSub allow : Bool)
    (ev : RawEvent) (h : ev.type ≠ "session.idle") :
    idleBranch cfg isSub allow ev = ⟨0, 0⟩ := by
  unfold idleBranch
  rw [if_neg h]

theorem errorBranch_other (cfg : PluginConfig) (isSub allow : Bool)
    (ev : RawEvent) (h : ev.type ≠ "session.error") :
    errorBranch cfg isSub allow ev = ⟨0, 0⟩ := by
  unfold errorBranch
  rw [if_neg h]

/-- C1: one invocation of the event hook calls `backend.send` at most once
— zero or one times — whatever the branch, the configuration, the subagent
verdict, or the rate limiter's verdict. -/
theorem eventHook_sends_at_most_once (cfg : PluginConfig)
    (isSub allow : Bool) (ev : RawEvent) :
    (eventHook cfg isSub allow ev).sends ≤ 1 := by
  unfold eventHook
  split
  · simp
  · split
    · exact permBranch_sends_le cfg allow
    · by_cases h1 : ev.type = "session.idle"
      · rw [errorBranch_other cfg isSub allow ev (by rw [h1]; decide)]
        have := idleBranch_sends_le cfg isSub allow ev
        simp [Effects.add]
        omega
      · rw [idleBranch_other cfg isSub allow ev h1]
        have := errorBranch_sends_le cfg isSub allow ev
        simp [Effects.add]
        omega

/-- Config for the C2 counterexample: globally enabled, `session.idle`
disabled, no cooldown. -/
def c2cfg : PluginConfig := ⟨true, ⟨⟨false⟩, ⟨true⟩, ⟨true⟩⟩, false⟩

/-- Event for the C2 counterexample: a `session.idle` host event with a
non-empty session id. -/
def c2ev : RawEvent :=
  ⟨"session.idle", some (.obj [("sessionID", .str "sess-1")])⟩

/-- C2 counterexample: with `events["session.idle"].enabled = false` the
hook does drop the event (no send), but it has already invoked the
session-lookup capability once — the `session.idle` branch performs the
subagent lookup *before* the per-kind enabled check, so the claimed
"drops without ever invoking the session lookup" is false. -/
theorem eventHook_disabled_kind_still_looks_up :
    c2cfg.events.sessionIdle.enabled = false ∧
    (eventHook c2cfg false true c2ev).sends = 0 ∧
    ¬ ((eventHook c2cfg false true c2ev).lookups = 0) ∧
    (eventHook c2cfg false true c2ev).lookups = 1 := by
  refine ⟨rfl, by decide, by decide, by decide⟩

/-- C2 (amended): an event whose per-kind enabled flag is false is always
dropped (no `backend.send`), and for `permission.asked` this happens
before any session lookup (none is made); but for `session.idle` and
`session.error` the subagent lookup runs before the per-kind enabled
check, so a disabled kind can still incur the lookup (for `session.error`
only when the session id is non-empty). -/
theorem eventHook_disabled_kind_drops (cfg : PluginConfig)
    (isSub allow : Bool) (ev : RawEvent) :
    (ev.type = "permission.asked" →
      cfg.events.permissionAsked.enabled = false →
      eventHook cfg isSub allow ev = ⟨0, 0⟩) ∧
    (ev.type = "session.idle" → cfg.events.sessionIdle.enabled = false →
      (eventHook cfg isSub allow ev).sends = 0) ∧
    (ev.type = "session.error" → cfg.events.sessionError.enabled = false →
      (eventHook cfg isSub allow ev).sends = 0) := by
  obtain ⟨cE, ⟨⟨bi⟩, ⟨be⟩, ⟨bp⟩⟩, cC⟩ := cfg
  refine ⟨?_, ?_, ?_⟩
  · intro ht hdis
    simp only at hdis
    subst hdis
    unfold eventHook permBranch
    rw [ht]
    cases cE <;> simp
  · intro ht hdis
    simp only at hdis
    subst hdis
    unfold eventHook idleBranch errorBranch Effects.add
    rw [ht]
    cases cE <;> cases isSub <;> simp
  · intro ht hdis
    simp only at hdis
    subst hdis
    unfold eventHook idleBranch errorBranch Effects.add
    rw [ht]
    cases cE <;> cases isSub <;>
      by_cases hs : getSessionID ev.properties ≠ "" <;> simp [hs]

theorem eventHook_disabled_kind_drops_witness :
    (RawEvent.mk "permission.asked" none).type = "permission.asked" ∧
    (PluginConfig.mk true ⟨⟨true⟩, ⟨true⟩, ⟨false⟩⟩
      false).events.permissionAsked.enabled = false ∧
    eventHook ⟨true, ⟨⟨true⟩, ⟨true⟩, ⟨false⟩⟩, false⟩ false true
      ⟨"permission.asked", none⟩ = ⟨0, 0⟩ :=
  ⟨rfl, rfl,
    (eventHook_disabled_kind_drops ⟨true, ⟨⟨true⟩, ⟨true⟩, ⟨false⟩⟩, false⟩
      false true ⟨"permission.asked", none⟩).1 rfl rfl⟩

end ONS
